import Mathlib

/-!
Verification of the Cachier module, a localStorage wrapper that serializes typed
values and attaches expiry times.  The development embeds the two shipped
versions of the module: the current version 1.3.1 (file cachier-1.3.1.js,
namespace-free definitions below) and the older version 1.2 of getItem
(definitions suffixed V12), which differs on unavailable stores and on missing
keys.

Modelling conventions:
- JavaScript values are the inductive JSVal; the six typeof kinds of the 2012
  language are object, number, boolean, string, function, undefined.
- The JSON collaborator (the external JSON-js library, passed to the module as
  the parameter Json) is an abstract codec: stringify may produce a string or
  undefined, parse may raise a SyntaxError.  It is not part of this repository.
- localStorage is an association list of string pairs together with an
  availability flag and a fault model: a set of keys on which setItem raises a
  quota fault.  removeItem and getItem on an available store never raise, as in
  the Web Storage interface; touching the store object when it is unavailable
  raises a TypeError.
- Numbers are modelled as integers (the spec declares TTLs to be integers and
  time values are integral milliseconds); NaN is a distinguished value.
- Raised exceptions are modelled with Except: a public operation either returns
  a value (Except.ok) or raises (Except.error).
-/

/-- Atomic JSON-representable value. -/
inductive JsonAtom where
  | anull
  | abool (b : Bool)
  | anum (n : Int)
  | astr (s : String)
deriving DecidableEq

/-- JSON-representable value of the kind object, as handled by the external
JSON collaborator.  Composite values are modelled one level deep; the claims
treat object payloads opaquely through the codec, so the depth does not matter
to any theorem.  The JavaScript value null also has typeof object and is the
constructor null here. -/
inductive Json where
  | null
  | jbool (b : Bool)
  | jnum (n : Int)
  | jstr (s : String)
  | jarr (elems : List JsonAtom)
  | jobj (fields : List (String × JsonAtom))
deriving DecidableEq

/-- JavaScript number as far as Cachier can observe it: an integer or NaN. -/
inductive JSNum where
  | int (n : Int)
  | nan
deriving DecidableEq

/-- JavaScript runtime value, one constructor per typeof kind. -/
inductive JSVal where
  | obj (j : Json)
  | num (n : JSNum)
  | bool (b : Bool)
  | str (s : String)
  | fn (id : Nat)
  | undef
deriving DecidableEq

/-- Result of the JavaScript typeof operator. -/
def jsTypeof : JSVal → String
  | .obj _ => "object"
  | .num _ => "number"
  | .bool _ => "boolean"
  | .str _ => "string"
  | .fn _ => "function"
  | .undef => "undefined"

/-- Raised JavaScript exception: the TypeError from calling toString on
undefined or from touching an unavailable store, and the SyntaxError raised by
JSON parse. -/
inductive JSError where
  | typeError
  | syntaxErr (msg : String)
deriving DecidableEq

/-- The external JSON collaborator (JSON-js), passed to the Cachier module as
its Json parameter.  stringify returns a string or undefined (none); parse
either returns a value or raises a SyntaxError carrying a message. -/
structure JsonCodec where
  stringify : Json → Option String
  parse : String → Except String Json

/-! ### Decimal numerals

The module stores expiry timestamps with Number.prototype.toString and reads
them back with parseInt; number payloads are stored with toString and read
back with the Number conversion.  The printers and parsers below model those
conversions for integral values.  The printer uses explicit fuel so that every
definition is structurally recursive and evaluates inside the kernel. -/

/-- Character for one decimal digit. -/
def digitToChar (d : Nat) : Char :=
  match d with
  | 0 => '0'
  | 1 => '1'
  | 2 => '2'
  | 3 => '3'
  | 4 => '4'
  | 5 => '5'
  | 6 => '6'
  | 7 => '7'
  | 8 => '8'
  | _ => '9'

/-- Numeric value of one decimal digit character. -/
def charToDigit (c : Char) : Nat := c.toNat - 48

/-- Little-endian decimal digits of a natural number; the fuel argument makes
the recursion structural and is always called with enough fuel. -/
def natDigitsRevAux : Nat → Nat → List Char
  | 0, _ => []
  | fuel + 1, n =>
    if n < 10 then [digitToChar n]
    else digitToChar (n % 10) :: natDigitsRevAux fuel (n / 10)

/-- Big-endian decimal digits of a natural number. -/
def natToChars (n : Nat) : List Char := (natDigitsRevAux (n + 1) n).reverse

/-- Model of Number.prototype.toString for an integral JavaScript number. -/
def jsIntToString (i : Int) : String :=
  if i < 0 then String.mk ('-' :: natToChars i.natAbs) else String.mk (natToChars i.toNat)

/-- Model of the toString conversion applied to a stored number payload. -/
def jsNumToString : JSNum → String
  | .int n => jsIntToString n
  | .nan => "NaN"

/-- Value of a big-endian list of decimal digit characters. -/
def digitsVal (acc : Nat) : List Char → Nat
  | [] => acc
  | c :: cs => digitsVal (acc * 10 + charToDigit c) cs

/-- Longest-prefix decimal parse, the core of parseInt: take the leading run of
digits and fail (NaN, modelled none) when there is none. -/
def parseNatCore (cs : List Char) : Option Nat :=
  let ds := cs.takeWhile Char.isDigit
  if ds = [] then none else some (digitsVal 0 ds)

/-- Signed longest-prefix decimal parse. -/
def parseIntCore (cs : List Char) : Option Int :=
  match cs with
  | [] => none
  | c :: rest =>
    if c = '-' then (parseNatCore rest).map (fun n => -(n : Int))
    else if c = '+' then (parseNatCore rest).map (fun n => (n : Int))
    else (parseNatCore (c :: rest)).map (fun n => (n : Int))

/-- Model of the JavaScript parseInt on a string.  Leading whitespace and the
hexadecimal prefix of full parseInt are not modelled; the module itself only
ever stores plain decimal numerals. -/
def parseIntJS (s : String) : Option Int := parseIntCore s.data

/-- parseInt applied to the result of localStorage.getItem: a missing entry is
null, and parseInt(null) is NaN (none). -/
def parseIntOpt : Option String → Option Int
  | none => none
  | some s => parseIntJS s

/-- Full-string decimal parse of a natural number. -/
def parseNatFull (cs : List Char) : Option Nat :=
  if cs ≠ [] ∧ cs.all Char.isDigit then some (digitsVal 0 cs) else none

/-- Full-string signed decimal parse. -/
def parseNumFull (cs : List Char) : Option Int :=
  match cs with
  | [] => none
  | c :: rest =>
    if c = '-' then (parseNatFull rest).map (fun n => -(n : Int))
    else if c = '+' then (parseNatFull rest).map (fun n => (n : Int))
    else (parseNatFull (c :: rest)).map (fun n => (n : Int))

/-- Model of the JavaScript Number conversion on a string, restricted to the
integral numerals this module produces; any other content is NaN.  The empty
string converts to zero as in JavaScript. -/
def jsNumberOfString (s : String) : JSNum :=
  if s = "" then .int 0
  else
    match parseNumFull s.data with
    | some i => .int i
    | none => .nan

/-- The JavaScript comparison now < expireDate where expireDate may be NaN
(none): every comparison with NaN is false. -/
def jsLtOpt (now : Int) : Option Int → Bool
  | some e => decide (now < e)
  | none => false

/-! ### The underlying store -/

/-- Association list lookup, first match wins; models localStorage.getItem,
which returns null (none) for a missing key. -/
def kvGet : List (String × String) → String → Option String
  | [], _ => none
  | (k, v) :: rest, q => if k = q then some v else kvGet rest q

/-- Removal of every pair under a key; models localStorage.removeItem, a no-op
for missing keys. -/
def kvRemove : List (String × String) → String → List (String × String)
  | [], _ => []
  | (k, v) :: rest, q => if k = q then kvRemove rest q else (k, v) :: kvRemove rest q

/-- The localStorage environment: whether the object exists at all in the
current host, its contents, and the fault model of the external store (the set
of keys on which a write raises a quota fault). -/
structure LocalStorage where
  avail : Bool
  items : List (String × String)
  failKeys : List String
deriving DecidableEq

/-- localStorage.setItem: raises (none) when the store object is unavailable or
when the external store faults on this key; otherwise prepends the pair, which
shadows any older pair under the same key. -/
def lsSetItem (st : LocalStorage) (key val : String) : Option LocalStorage :=
  if st.avail = false then none
  else if key ∈ st.failKeys then none
  else some { st with items := (key, val) :: st.items }

/-! ### The Cachier module, version 1.3.1 -/

/-- One hour in milliseconds, the default expiry time. -/
def defaultTime : Int := 60 * 60 * 1000

/-- The three derived storage keys for one logical cache key. -/
structure Cids where
  data : String
  type : String
  expire : String
deriving DecidableEq

/-- prepareCids: substitute the logical key into the three namespaced
templates.  The source replaces the cid placeholder at the end of each
template, which for ordinary keys is exactly appending the key to the
namespace. -/
def prepareCids (cid : String) : Cids :=
  { data := "cachier:data:" ++ cid
    type := "cachier:type:" ++ cid
    expire := "cachier:expire:" ++ cid }

/-- The private helper underscore-exists and the public method exists: when the
store is available, report whether the data entry is present; otherwise report
false. -/
def existsItem (cacheId : String) (st : LocalStorage) : Bool :=
  if st.avail then (kvGet st.items (prepareCids cacheId).data).isSome else false

/-- Result record of getItem in version 1.3.1. -/
structure GetResult where
  cids : Cids
  data : JSVal
  error : Option String
  result : Bool
  expires : Int
deriving DecidableEq

/-- removeItem: delete all three derived entries.  On an available store the
three removals never raise, so the method returns true; on an unavailable store
the very first property access raises, the catch block runs, and the method
returns false. -/
def removeItem (cacheId : String) (st : LocalStorage) : Bool × LocalStorage :=
  if st.avail then
    (true,
      { st with
        items :=
          kvRemove
            (kvRemove (kvRemove st.items (prepareCids cacheId).data)
              (prepareCids cacheId).type)
            (prepareCids cacheId).expire })
  else (false, st)

/-- The decode switch of getItem: dispatch on the stored type tag.  The expires
field was already set from the expiry before the switch runs, so the function
and unknown arms keep it.  The default arm also covers a missing tag (null). -/
def decodeTag (codec : JsonCodec) (base : GetResult) (dataType : Option String)
    (dataStr : String) (exp : Int) : Except JSError GetResult :=
  match dataType with
  | some ("object") =>
    match codec.parse dataStr with
    | .ok j => .ok { base with data := .obj j, result := true, expires := exp }
    | .error m => .error (.syntaxErr m)
  | some ("number") =>
    .ok { base with data := .num (jsNumberOfString dataStr), result := true, expires := exp }
  | some ("boolean") =>
    .ok { base with data := .bool (dataStr = "true"), result := true, expires := exp }
  | some ("string") =>
    .ok { base with data := .str dataStr, result := true, expires := exp }
  | some ("function") =>
    .ok { base with error := some ("Function was saved, unable to retrieve the value"), expires := exp }
  | _ =>
    .ok { base with error := some ("Unknown data type was saved"), expires := exp }

/-- getItem of version 1.3.1: check availability, check existence, compare the
current time against the parsed stored expiry (a comparison with NaN is false
and lands in the expired branch), decode on the stored tag, and on expiry
delete the entry through removeItem before reporting the miss. -/
def getItem (codec : JsonCodec) (cacheId : String) (now : Int) (st : LocalStorage) :
    Except JSError (GetResult × LocalStorage) :=
  let cid := prepareCids cacheId
  let base : GetResult :=
    { cids := cid, data := .str "", error := none, result := false, expires := -1 }
  if st.avail then
    if existsItem cacheId st then
      let expireDate := parseIntOpt (kvGet st.items cid.expire)
      if jsLtOpt now expireDate then
        match
          decodeTag codec base (kvGet st.items cid.type)
            ((kvGet st.items cid.data).getD "") (expireDate.getD 0 - now) with
        | .ok r => .ok (r, st)
        | .error e => .error e
      else
        .ok ({ base with error := some ("Expired in cache") }, (removeItem cacheId st).2)
    else
      .ok ({ base with error := some ("Cache key undefined") }, st)
  else
    .ok ({ base with error := some ("The localStorage object is not supported") }, st)

/-- Expiry time chosen by setItem: the expire argument unless it is absent or
falsy (zero), in which case the one-hour default applies. -/
def setExpireTime : Option Int → Int
  | none => defaultTime
  | some e => if e = 0 then defaultTime else e

/-- The type switch of setItem, producing the reassigned data variable:
none models the early return false of the function arm; undefined reaches the
default arm, where calling toString on it raises a TypeError; an object is
serialized by the codec, which may itself produce undefined instead of a
string. -/
def convertPayload (codec : JsonCodec) : JSVal → Except JSError (Option JSVal)
  | .fn _ => .ok none
  | .obj j =>
    .ok (some (match codec.stringify j with
      | some s => .str s
      | none => .undef))
  | .str s => .ok (some (.str s))
  | .num n => .ok (some (.str (jsNumToString n)))
  | .bool b => .ok (some (.str (if b then "true" else "false")))
  | .undef => .error .typeError

/-- The string payload that setItem would write for a value, when the switch
produces a string without raising; none covers the function arm and a codec
that returned undefined. -/
def payloadStr (codec : JsonCodec) : JSVal → Option String
  | .fn _ => none
  | .obj j => codec.stringify j
  | .str s => some s
  | .num n => some (jsNumToString n)
  | .bool b => some (if b then "true" else "false")
  | .undef => none

/-- The try block of setItem: the three writes in the order data, type, expire.
A fault aborts with false and keeps the store as written so far. -/
def trySaveAll (st : LocalStorage) (cid : Cids) (payload dataType expireStr : String) :
    Bool × LocalStorage :=
  match lsSetItem st cid.data payload with
  | none => (false, st)
  | some st1 =>
    match lsSetItem st1 cid.type dataType with
    | none => (false, st1)
    | some st2 =>
      match lsSetItem st2 cid.expire expireStr with
      | none => (false, st2)
      | some st3 => (true, st3)

/-- setItem of version 1.3.1 (the 1.2 version is identical up to the store
references): record typeof before conversion, run the type switch, double-check
that the payload is a string, then attempt the three writes inside one try
block. -/
def setItem (codec : JsonCodec) (cacheId : String) (data : JSVal) (expire : Option Int)
    (now : Int) (st : LocalStorage) : Except JSError (Bool × LocalStorage) :=
  let expireTime := setExpireTime expire
  let dataType := jsTypeof data
  match convertPayload codec data with
  | .error e => .error e
  | .ok none => .ok (false, st)
  | .ok (some payload) =>
    match payload with
    | .str s =>
      .ok (trySaveAll st (prepareCids cacheId) s dataType (jsIntToString (expireTime + now)))
    | _ => .ok (false, st)

/-! ### getItem of version 1.2 (the unnamed source file)

Version 1.2 reads the store reference captured at module load without any
availability guard, so on an unavailable store the very first getItem call
raises a TypeError.  It also has no existence check: a missing entry parses to
NaN, falls into the expired branch, and is reported with the error Expired.
Its result record has no cids and no expires field. -/

/-- Result record of getItem in version 1.2. -/
structure GetResult12 where
  result : Bool
  data : JSVal
  error : Option String
deriving DecidableEq

/-- getItem of version 1.2. -/
def getItemV12 (codec : JsonCodec) (cacheId : String) (now : Int) (st : LocalStorage) :
    Except JSError (GetResult12 × LocalStorage) :=
  if st.avail = false then .error .typeError
  else
    let cid := prepareCids cacheId
    let base : GetResult12 := { result := false, data := .str "", error := none }
    let expireDate := parseIntOpt (kvGet st.items cid.expire)
    if jsLtOpt now expireDate then
      match
        decodeTag codec
          { cids := cid, data := .str "", error := none, result := false, expires := -1 }
          (kvGet st.items cid.type) ((kvGet st.items cid.data).getD "") 0 with
      | .ok r => .ok ({ result := r.result, data := r.data, error := r.error }, st)
      | .error e => .error e
    else
      .ok ({ base with error := some ("Expired") }, (removeItem cacheId st).2)

/-! ### Decidable equality on results -/

deriving instance DecidableEq for Except

/-! ### Concrete fixtures

A small concrete codec and concrete stores, used by the closed witness and
counterexample theorems below.  The toy codec serializes only the JSON value
null and raises a SyntaxError on every string other than its own output, which
is enough to exercise every code path concretely. -/

/-- Concrete JSON codec for closed evaluations. -/
def toyCodec : JsonCodec :=
  { stringify := fun j => if j = .null then some ("null") else none
    parse := fun s => if s = "null" then .ok .null else .error ("Unexpected token") }

/-- An available store with no contents and no write faults. -/
def emptyStore : LocalStorage := { avail := true, items := [], failKeys := [] }

/-- The store produced by a successful setItem of the string hi under the key k
with TTL 5 at time 0. -/
def demoWritten : LocalStorage :=
  { avail := true
    failKeys := []
    items := [("cachier:expire:k", "5"), ("cachier:type:k", "string"), ("cachier:data:k", "hi")] }

/-- The result record of the successful getItem at time 3 on demoWritten. -/
def demoGetRes : GetResult :=
  { cids := prepareCids ("k"), data := .str "hi", error := none, result := true, expires := 2 }

/-- A store holding an entry under the key k whose type tag is function and
whose expiry lies in the future. -/
def fnTagStore : LocalStorage :=
  { avail := true
    failKeys := []
    items := [("cachier:data:k", "x"), ("cachier:type:k", "function"), ("cachier:expire:k", "100")] }

/-- The result record of getItem at time 0 on fnTagStore: a failure that still
reports the remaining time to expiry instead of the sentinel. -/
def fnTagRes : GetResult :=
  { cids := prepareCids ("k")
    data := .str ""
    error := some ("Function was saved, unable to retrieve the value")
    result := false
    expires := 100 }

/-- An empty available store whose external fault model raises on the write of
the derived type key of k, so that the second of the three writes of setItem
faults after the first one succeeded. -/
def partialStore : LocalStorage := { avail := true, items := [], failKeys := ["cachier:type:k"] }

/-- The store left behind by the faulting setItem on partialStore: the data
entry was written, the type and expire entries were not. -/
def partialWritten : LocalStorage :=
  { avail := true, items := [("cachier:data:k", "v")], failKeys := ["cachier:type:k"] }

/-- A store holding an object-tagged entry whose value string is not valid
JSON. -/
def corruptStore : LocalStorage :=
  { avail := true
    failKeys := []
    items := [("cachier:data:k", "\x7b"), ("cachier:type:k", "object"), ("cachier:expire:k", "100")] }

/-- An environment in which localStorage is unavailable. -/
def unavailStore : LocalStorage := { avail := false, items := [], failKeys := [] }

/-! ### Lemmas about decimal numerals -/

/-- Every digit character produced by digitToChar is a decimal digit. -/
theorem digitToChar_isDigit (d : Nat) : (digitToChar d).isDigit = true := by
  unfold digitToChar
  rcases d with _|_|_|_|_|_|_|_|_|_ <;> rfl

/-- Reading back the digit character of a digit below ten gives the digit. -/
theorem charToDigit_digitToChar {d : Nat} (h : d < 10) : charToDigit (digitToChar d) = d := by
  interval_cases d <;> rfl

/-- With enough fuel the digit list is never empty. -/
theorem natDigitsRevAux_ne_nil {fuel n : Nat} (h : n < fuel) : natDigitsRevAux fuel n ≠ [] := by
  cases fuel with
  | zero => omega
  | succ fuel =>
    unfold natDigitsRevAux
    split <;> simp

/-- With enough fuel every produced character is a decimal digit. -/
theorem natDigitsRevAux_digits {fuel n : Nat} (h : n < fuel) :
    ∀ c ∈ natDigitsRevAux fuel n, c.isDigit = true := by
  induction fuel generalizing n with
  | zero => omega
  | succ fuel ih =>
    unfold natDigitsRevAux
    split
    · intro c hc
      rw [List.mem_singleton] at hc
      subst hc
      exact digitToChar_isDigit n
    · rename_i hn
      intro c hc
      rcases List.mem_cons.mp hc with hc | hc
      · subst hc
        exact digitToChar_isDigit _
      · exact ih (by omega) c hc

/-- Value of a digit list extended on the right by one digit. -/
theorem digitsVal_append (a : Nat) (xs : List Char) (c : Char) :
    digitsVal a (xs ++ [c]) = digitsVal a xs * 10 + charToDigit c := by
  induction xs generalizing a with
  | nil => rfl
  | cons x xs ih =>
    rw [List.cons_append]
    show digitsVal (a * 10 + charToDigit x) (xs ++ [c]) = _
    rw [ih]
    rfl

/-- Value of the reversed digit list of a natural number. -/
theorem digitsVal_reverse {fuel n : Nat} (h : n < fuel) (a : Nat) :
    digitsVal a (natDigitsRevAux fuel n).reverse =
      a * 10 ^ (natDigitsRevAux fuel n).length + n := by
  induction fuel generalizing n a with
  | zero => omega
  | succ fuel ih =>
    unfold natDigitsRevAux
    split
    · rename_i hn
      rw [List.reverse_singleton]
      show a * 10 + charToDigit (digitToChar n) = _
      rw [charToDigit_digitToChar hn]
      simp
    · rename_i hn
      rw [List.reverse_cons, digitsVal_append, ih (by omega) a,
        charToDigit_digitToChar (by omega : n % 10 < 10), List.length_cons, pow_succ]
      have hsplit :
          (a * 10 ^ (natDigitsRevAux fuel (n / 10)).length + n / 10) * 10 + n % 10 =
            a * (10 ^ (natDigitsRevAux fuel (n / 10)).length * 10) + (n / 10 * 10 + n % 10) := by
        ring
      rw [hsplit]
      congr 1
      omega

/-- A list of digit characters is fully consumed by takeWhile isDigit. -/
theorem takeWhile_digits_eq_self {l : List Char} (h : ∀ c ∈ l, c.isDigit = true) :
    l.takeWhile Char.isDigit = l := by
  induction l with
  | nil => rfl
  | cons x xs ih =>
    rw [List.takeWhile_cons, h x (List.mem_cons_self x xs),
      ih (fun c hc => h c (List.mem_cons_of_mem x hc))]
    rfl

/-- The printed digits of a natural number are all decimal digits. -/
theorem natToChars_digits (n : Nat) : ∀ c ∈ natToChars n, c.isDigit = true := by
  intro c hc
  exact natDigitsRevAux_digits (Nat.lt_succ_self n) c (List.mem_reverse.mp hc)

/-- The printed digits of a natural number form a nonempty list headed by a
digit character. -/
theorem natToChars_cons (n : Nat) : ∃ c cs, natToChars n = c :: cs ∧ c.isDigit = true := by
  have hne : natToChars n ≠ [] := by
    unfold natToChars
    simpa using natDigitsRevAux_ne_nil (Nat.lt_succ_self n)
  cases hl : natToChars n with
  | nil => exact absurd hl hne
  | cons c cs =>
    refine ⟨c, cs, rfl, ?_⟩
    exact natToChars_digits n c (hl ▸ List.mem_cons_self c cs)

/-- The longest-prefix parse reads back the printed digits of a natural
number. -/
theorem parseNatCore_natToChars (n : Nat) : parseNatCore (natToChars n) = some n := by
  unfold parseNatCore
  rw [takeWhile_digits_eq_self (natToChars_digits n)]
  have hne : natToChars n ≠ [] := by
    unfold natToChars
    simpa using natDigitsRevAux_ne_nil (Nat.lt_succ_self n)
  rw [if_neg hne]
  have hv := digitsVal_reverse (Nat.lt_succ_self n) 0
  unfold natToChars
  rw [hv]
  simp

/-- The full-string parse reads back the printed digits of a natural number. -/
theorem parseNatFull_natToChars (n : Nat) : parseNatFull (natToChars n) = some n := by
  unfold parseNatFull
  have hne : natToChars n ≠ [] := by
    unfold natToChars
    simpa using natDigitsRevAux_ne_nil (Nat.lt_succ_self n)
  rw [if_pos ⟨hne, by rw [List.all_eq_true]; exact natToChars_digits n⟩]
  have hv := digitsVal_reverse (Nat.lt_succ_self n) 0
  unfold natToChars
  rw [hv]
  simp

/-- parseInt reads back every printed integer. -/
theorem parseIntJS_jsIntToString (i : Int) : parseIntJS (jsIntToString i) = some i := by
  by_cases hi : i < 0
  · unfold parseIntJS jsIntToString
    rw [if_pos hi]
    show (parseNatCore (natToChars i.natAbs)).map (fun n => -(n : Int)) = some i
    rw [parseNatCore_natToChars]
    show some (-(i.natAbs : Int)) = some i
    congr 1
    omega
  · unfold parseIntJS jsIntToString
    rw [if_neg hi]
    show parseIntCore (natToChars i.toNat) = some i
    obtain ⟨c, cs, hl, hc⟩ := natToChars_cons i.toNat
    rw [hl]
    have hcm : c ≠ '-' := fun h => absurd (h ▸ hc) (by decide)
    have hcp : c ≠ '+' := fun h => absurd (h ▸ hc) (by decide)
    show (if c = '-' then (parseNatCore cs).map (fun n => -(n : Int))
          else if c = '+' then (parseNatCore cs).map (fun n => (n : Int))
          else (parseNatCore (c :: cs)).map (fun n => (n : Int))) = some i
    rw [if_neg hcm, if_neg hcp, ← hl, parseNatCore_natToChars]
    show some ((i.toNat : Int)) = some i
    congr 1
    omega

/-- The full-string signed parse reads back every printed integer. -/
theorem parseNumFull_jsIntToString (i : Int) : parseNumFull (jsIntToString i).data = some i := by
  by_cases hi : i < 0
  · unfold jsIntToString
    rw [if_pos hi]
    show (parseNatFull (natToChars i.natAbs)).map (fun n => -(n : Int)) = some i
    rw [parseNatFull_natToChars]
    show some (-(i.natAbs : Int)) = some i
    congr 1
    omega
  · unfold jsIntToString
    rw [if_neg hi]
    show parseNumFull (natToChars i.toNat) = some i
    obtain ⟨c, cs, hl, hc⟩ := natToChars_cons i.toNat
    rw [hl]
    have hcm : c ≠ '-' := fun h => absurd (h ▸ hc) (by decide)
    have hcp : c ≠ '+' := fun h => absurd (h ▸ hc) (by decide)
    show (if c = '-' then (parseNatFull cs).map (fun n => -(n : Int))
          else if c = '+' then (parseNatFull cs).map (fun n => (n : Int))
          else (parseNatFull (c :: cs)).map (fun n => (n : Int))) = some i
    rw [if_neg hcm, if_neg hcp, ← hl, parseNatFull_natToChars]
    show some ((i.toNat : Int)) = some i
    congr 1
    omega

/-- The printed form of an integer is never the empty string. -/
theorem jsIntToString_ne_empty (i : Int) : jsIntToString i ≠ "" := by
  intro h
  by_cases hi : i < 0
  · rw [jsIntToString, if_pos hi] at h
    exact List.cons_ne_nil _ _ (congrArg String.data h)
  · rw [jsIntToString, if_neg hi] at h
    have hne : natToChars i.toNat ≠ [] := by
      unfold natToChars
      simpa using natDigitsRevAux_ne_nil (Nat.lt_succ_self i.toNat)
    exact hne (congrArg String.data h)

/-- The Number conversion reads back every stored number payload, NaN
included. -/
theorem jsNumberOfString_jsNumToString (x : JSNum) : jsNumberOfString (jsNumToString x) = x := by
  cases x with
  | nan => decide
  | int n =>
    unfold jsNumberOfString jsNumToString
    rw [if_neg (jsIntToString_ne_empty n), parseNumFull_jsIntToString]

/-! ### Lemmas about the underlying store -/

/-- Lookup after a fresh write under a different key skips the new pair. -/
theorem kvGet_cons_ne {k q : String} (v : String) (rest : List (String × String))
    (h : k ≠ q) : kvGet ((k, v) :: rest) q = kvGet rest q := by
  simp [kvGet, h]

/-- Lookup after a fresh write under the same key finds the new value. -/
theorem kvGet_cons_eq (k v : String) (rest : List (String × String)) :
    kvGet ((k, v) :: rest) k = some v := by
  simp [kvGet]

/-- Removing a key removes every pair under it. -/
theorem kvGet_kvRemove_self (l : List (String × String)) (q : String) :
    kvGet (kvRemove l q) q = none := by
  induction l with
  | nil => rfl
  | cons p rest ih =>
    obtain ⟨k, v⟩ := p
    unfold kvRemove
    by_cases hk : k = q
    · rw [if_pos hk]
      exact ih
    · rw [if_neg hk, kvGet_cons_ne v _ hk]
      exact ih

/-- Removing one key leaves lookups under every other key unchanged. -/
theorem kvGet_kvRemove_ne (l : List (String × String)) {q q' : String} (h : q' ≠ q) :
    kvGet (kvRemove l q) q' = kvGet l q' := by
  induction l with
  | nil => rfl
  | cons p rest ih =>
    obtain ⟨k, v⟩ := p
    unfold kvRemove
    by_cases hk : k = q
    · rw [if_pos hk, ih, kvGet_cons_ne v rest (by rw [hk]; exact fun he => h he.symm)]
    · rw [if_neg hk]
      unfold kvGet
      by_cases hq : k = q'
      · rw [if_pos hq, if_pos hq]
      · rw [if_neg hq, if_neg hq]
        exact ih

/-- Appending the same key to two strings with different character lists keeps
them different. -/
theorem append_ne_of_data_ne {a b : String} (k : String) (h : a.data ≠ b.data) :
    a ++ k ≠ b ++ k := by
  intro he
  apply h
  have h2 : (a ++ k).data = (b ++ k).data := by rw [he]
  simp only [String.data_append] at h2
  exact List.append_cancel_right h2

/-- The derived data key differs from the derived type key. -/
theorem dataKey_ne_typeKey (k : String) : (prepareCids k).data ≠ (prepareCids k).type :=
  append_ne_of_data_ne k (by decide)

/-- The derived data key differs from the derived expire key. -/
theorem dataKey_ne_expireKey (k : String) : (prepareCids k).data ≠ (prepareCids k).expire :=
  append_ne_of_data_ne k (by decide)

/-- The derived type key differs from the derived expire key. -/
theorem typeKey_ne_expireKey (k : String) : (prepareCids k).type ≠ (prepareCids k).expire :=
  append_ne_of_data_ne k (by decide)

/-! ### Characterizations of the write path -/

/-- A write chain that reports success wrote exactly the three pairs, in the
order data, type, expire, on an available store. -/
theorem trySaveAll_true {st st' : LocalStorage} {cid : Cids} {p d e : String}
    (h : trySaveAll st cid p d e = (true, st')) :
    st.avail = true ∧
      st' = { st with items := (cid.expire, e) :: (cid.type, d) :: (cid.data, p) :: st.items } := by
  by_cases h1 : st.avail = false
  · simp [trySaveAll, lsSetItem, h1] at h
  · have hav : st.avail = true := by simpa using h1
    by_cases h2 : cid.data ∈ st.failKeys
    · simp [trySaveAll, lsSetItem, h1, h2] at h
    · by_cases h3 : cid.type ∈ st.failKeys
      · simp [trySaveAll, lsSetItem, h1, h2, h3] at h
      · by_cases h4 : cid.expire ∈ st.failKeys
        · simp [trySaveAll, lsSetItem, h1, h2, h3, h4] at h
        · simp [trySaveAll, lsSetItem, h1, h2, h3, h4] at h
          refine ⟨hav, ?_⟩
          rw [hav]
          exact h.symm

/-- Every outcome of the write chain: the flags of the store never change, and
the contents are one of the four prefixes of the three writes. -/
theorem trySaveAll_items {st st' : LocalStorage} {cid : Cids} {p d e : String} {b : Bool}
    (h : trySaveAll st cid p d e = (b, st')) :
    st'.avail = st.avail ∧ st'.failKeys = st.failKeys ∧
      (st'.items = st.items ∨
       st'.items = (cid.data, p) :: st.items ∨
       st'.items = (cid.type, d) :: (cid.data, p) :: st.items ∨
       st'.items = (cid.expire, e) :: (cid.type, d) :: (cid.data, p) :: st.items) := by
  by_cases h1 : st.avail = false
  · simp [trySaveAll, lsSetItem, h1] at h
    rw [← h.2]
    simp
  · have hav : st.avail = true := by simpa using h1
    by_cases h2 : cid.data ∈ st.failKeys
    · simp [trySaveAll, lsSetItem, h1, h2] at h
      rw [← h.2]
      simp
    · by_cases h3 : cid.type ∈ st.failKeys
      · simp [trySaveAll, lsSetItem, h1, h2, h3] at h
        rw [← h.2]
        simp [hav]
      · by_cases h4 : cid.expire ∈ st.failKeys
        · simp [trySaveAll, lsSetItem, h1, h2, h3, h4] at h
          rw [← h.2]
          simp [hav]
        · simp [trySaveAll, lsSetItem, h1, h2, h3, h4] at h
          rw [← h.2]
          simp [hav]

/-- A successful setItem call produced a string payload, found the store
available, and prepended exactly the three derived entries. -/
theorem setItem_ok_true {codec : JsonCodec} {k : String} {v : JSVal} {e : Option Int}
    {now : Int} {st st' : LocalStorage}
    (h : setItem codec k v e now st = .ok (true, st')) :
    ∃ s, payloadStr codec v = some s ∧ st.avail = true ∧
      st' = { st with items :=
        ((prepareCids k).expire, jsIntToString (setExpireTime e + now)) ::
        ((prepareCids k).type, jsTypeof v) ::
        ((prepareCids k).data, s) :: st.items } := by
  cases v with
  | fn id => simp [setItem, convertPayload] at h
  | undef => simp [setItem, convertPayload] at h
  | obj j =>
    cases hj : codec.stringify j with
    | none => simp [setItem, convertPayload, hj] at h
    | some s =>
      simp only [setItem, convertPayload, hj, Except.ok.injEq] at h
      obtain ⟨hav, hst⟩ := trySaveAll_true h
      exact ⟨s, hj, hav, by rw [hst]⟩
  | str s =>
    simp only [setItem, convertPayload, Except.ok.injEq] at h
    obtain ⟨hav, hst⟩ := trySaveAll_true h
    exact ⟨s, rfl, hav, by rw [hst]⟩
  | num n =>
    simp only [setItem, convertPayload, Except.ok.injEq] at h
    obtain ⟨hav, hst⟩ := trySaveAll_true h
    exact ⟨jsNumToString n, rfl, hav, by rw [hst]⟩
  | bool b =>
    simp only [setItem, convertPayload, Except.ok.injEq] at h
    obtain ⟨hav, hst⟩ := trySaveAll_true h
    exact ⟨if b then "true" else "false", rfl, hav, by rw [hst]⟩

/-- setItem raises exactly on an undefined value, with a TypeError. -/
theorem setItem_error {codec : JsonCodec} {k : String} {v : JSVal} {e : Option Int}
    {now : Int} {st : LocalStorage} {err : JSError}
    (h : setItem codec k v e now st = .error err) : v = .undef ∧ err = .typeError := by
  cases v with
  | undef =>
    refine ⟨rfl, ?_⟩
    simp only [setItem, convertPayload, Except.error.injEq] at h
    exact h.symm
  | fn id => simp [setItem, convertPayload] at h
  | obj j =>
    cases hj : codec.stringify j with
    | none => simp [setItem, convertPayload, hj] at h
    | some s => simp [setItem, convertPayload, hj] at h
  | str s => simp [setItem, convertPayload] at h
  | num n => simp [setItem, convertPayload] at h
  | bool b => simp [setItem, convertPayload] at h

/-- When the type switch does not produce a string payload and the value is not
undefined, setItem rejects without touching the store. -/
theorem setItem_payload_none {codec : JsonCodec} {k : String} {v : JSVal} {e : Option Int}
    {now : Int} {st : LocalStorage}
    (hp : payloadStr codec v = none) (hnu : v ≠ .undef) :
    setItem codec k v e now st = .ok (false, st) := by
  cases v with
  | fn id => rfl
  | undef => exact absurd rfl hnu
  | obj j =>
    have hj : codec.stringify j = none := hp
    simp [setItem, convertPayload, hj]
  | str s => simp [payloadStr] at hp
  | num n => simp [payloadStr] at hp
  | bool b => simp [payloadStr] at hp

/-- Every returning setItem call keeps the store flags and leaves the contents
equal to one of the four write prefixes. -/
theorem setItem_ok_items {codec : JsonCodec} {k : String} {v : JSVal} {e : Option Int}
    {now : Int} {st st' : LocalStorage} {b : Bool}
    (h : setItem codec k v e now st = .ok (b, st')) :
    st'.avail = st.avail ∧ st'.failKeys = st.failKeys ∧
      (st'.items = st.items ∨
       ∃ p t x, st'.items = ((prepareCids k).data, p) :: st.items ∨
         st'.items = ((prepareCids k).type, t) :: ((prepareCids k).data, p) :: st.items ∨
         st'.items = ((prepareCids k).expire, x) :: ((prepareCids k).type, t) ::
           ((prepareCids k).data, p) :: st.items) := by
  cases v with
  | undef => simp [setItem, convertPayload] at h
  | fn id =>
    simp only [setItem, convertPayload, Except.ok.injEq, Prod.mk.injEq] at h
    rw [← h.2]
    simp
  | obj j =>
    cases hj : codec.stringify j with
    | none =>
      simp only [setItem, convertPayload, hj, Except.ok.injEq, Prod.mk.injEq] at h
      rw [← h.2]
      simp
    | some s =>
      simp only [setItem, convertPayload, hj, Except.ok.injEq] at h
      obtain ⟨ha, hf, hi⟩ := trySaveAll_items h
      refine ⟨ha, hf, ?_⟩
      rcases hi with hi | hi | hi | hi
      · exact Or.inl hi
      · exact Or.inr ⟨s, jsTypeof (JSVal.obj j), jsIntToString (setExpireTime e + now), Or.inl hi⟩
      · exact Or.inr ⟨s, jsTypeof (JSVal.obj j), jsIntToString (setExpireTime e + now),
          Or.inr (Or.inl hi)⟩
      · exact Or.inr ⟨s, jsTypeof (JSVal.obj j), jsIntToString (setExpireTime e + now),
          Or.inr (Or.inr hi)⟩
  | str s =>
    simp only [setItem, convertPayload, Except.ok.injEq] at h
    obtain ⟨ha, hf, hi⟩ := trySaveAll_items h
    refine ⟨ha, hf, ?_⟩
    rcases hi with hi | hi | hi | hi
    · exact Or.inl hi
    · exact Or.inr ⟨s, jsTypeof (JSVal.str s), jsIntToString (setExpireTime e + now), Or.inl hi⟩
    · exact Or.inr ⟨s, jsTypeof (JSVal.str s), jsIntToString (setExpireTime e + now),
        Or.inr (Or.inl hi)⟩
    · exact Or.inr ⟨s, jsTypeof (JSVal.str s), jsIntToString (setExpireTime e + now),
        Or.inr (Or.inr hi)⟩
  | num n =>
    simp only [setItem, convertPayload, Except.ok.injEq] at h
    obtain ⟨ha, hf, hi⟩ := trySaveAll_items h
    refine ⟨ha, hf, ?_⟩
    rcases hi with hi | hi | hi | hi
    · exact Or.inl hi
    · exact Or.inr ⟨jsNumToString n, jsTypeof (JSVal.num n),
        jsIntToString (setExpireTime e + now), Or.inl hi⟩
    · exact Or.inr ⟨jsNumToString n, jsTypeof (JSVal.num n),
        jsIntToString (setExpireTime e + now), Or.inr (Or.inl hi)⟩
    · exact Or.inr ⟨jsNumToString n, jsTypeof (JSVal.num n),
        jsIntToString (setExpireTime e + now), Or.inr (Or.inr hi)⟩
  | bool bv =>
    simp only [setItem, convertPayload, Except.ok.injEq] at h
    obtain ⟨ha, hf, hi⟩ := trySaveAll_items h
    refine ⟨ha, hf, ?_⟩
    rcases hi with hi | hi | hi | hi
    · exact Or.inl hi
    · exact Or.inr ⟨if bv then "true" else "false", jsTypeof (JSVal.bool bv),
        jsIntToString (setExpireTime e + now), Or.inl hi⟩
    · exact Or.inr ⟨if bv then "true" else "false", jsTypeof (JSVal.bool bv),
        jsIntToString (setExpireTime e + now), Or.inr (Or.inl hi)⟩
    · exact Or.inr ⟨if bv then "true" else "false", jsTypeof (JSVal.bool bv),
        jsIntToString (setExpireTime e + now), Or.inr (Or.inr hi)⟩

/-! ### Characterizations of the decode switch -/

/-- The decode switch raises exactly when the stored tag is object and the
codec parse raises a SyntaxError. -/
theorem decodeTag_error {codec : JsonCodec} {base : GetResult} {dataType : Option String}
    {dataStr : String} {exp : Int} {err : JSError}
    (h : decodeTag codec base dataType dataStr exp = .error err) :
    dataType = some ("object") ∧ ∃ m, codec.parse dataStr = .error m ∧ err = .syntaxErr m := by
  unfold decodeTag at h
  split at h
  · refine ⟨rfl, ?_⟩
    split at h
    · simp at h
    · rename_i m heq
      injection h with h2
      exact ⟨m, heq, h2.symm⟩
  · simp at h
  · simp at h
  · simp at h
  · simp at h
  · simp at h

/-- Every returned record of the decode switch carries the expiry delta
computed before the switch, and is either a success keeping the base error or
a failure with one of the two decode failure messages. -/
theorem decodeTag_ok {codec : JsonCodec} {base : GetResult} {dataType : Option String}
    {dataStr : String} {exp : Int} {r : GetResult}
    (h : decodeTag codec base dataType dataStr exp = .ok r) :
    r.expires = exp ∧ r.cids = base.cids ∧
      ((r.result = true ∧ r.error = base.error) ∨
       (r.result = base.result ∧
         (r.error = some ("Function was saved, unable to retrieve the value") ∨
          r.error = some ("Unknown data type was saved")))) := by
  unfold decodeTag at h
  split at h
  · split at h
    · injection h with h2
      rw [← h2]
      simp
    · simp at h
  · injection h with h2
    rw [← h2]
    simp
  · injection h with h2
    rw [← h2]
    simp
  · injection h with h2
    rw [← h2]
    simp
  · injection h with h2
    rw [← h2]
    simp
  · injection h with h2
    rw [← h2]
    simp

/-! ### Claim theorems -/

/-- C7: for every key, every function value, every TTL and every store state,
setItem returns false and the store — including any prior entry at the key —
is completely unchanged: the function arm of the type switch returns before
any write is attempted. -/
theorem setItem_function_rejected (codec : JsonCodec) (k : String) (id : Nat) (e : Option Int)
    (now : Int) (st : LocalStorage) :
    setItem codec k (.fn id) e now st = .ok (false, st) := rfl

/-- C10: for every string key, setItem applied to the undefined value does not
return a boolean: the default arm of the type switch calls toString on
undefined outside any guard and a TypeError is raised to the caller. -/
theorem setItem_undefined_raises (codec : JsonCodec) (k : String) (e : Option Int) (now : Int)
    (st : LocalStorage) :
    setItem codec k .undef e now st = .error .typeError := rfl

/-- C4: when the store is available and no data entry is stored under the key,
getItem reports found false with the key-not-found error (the literal message
is Cache key undefined) and returns the store unchanged. -/
theorem getItem_missing_key (codec : JsonCodec) (k : String) (now : Int) (st : LocalStorage)
    (hav : st.avail = true)
    (hmiss : kvGet st.items (prepareCids k).data = none) :
    getItem codec k now st =
      .ok ({ cids := prepareCids k, data := .str "", error := some ("Cache key undefined"),
             result := false, expires := -1 }, st) := by
  simp [getItem, existsItem, hav, hmiss]

/-- Witness for C4 at the empty available store. -/
theorem getItem_missing_key_witness :
    getItem toyCodec ("k") 0 emptyStore =
      .ok ({ cids := prepareCids ("k"), data := .str "", error := some ("Cache key undefined"),
             result := false, expires := -1 }, emptyStore) :=
  getItem_missing_key toyCodec ("k") 0 emptyStore (by decide) (by decide)

/-- C8 amended: on an unavailable store, exists reports false and the 1.3.1
getItem returns found false with the store-unavailable error without raising;
the bundled 1.2 getItem instead raises a TypeError on its first store access. -/
theorem unavailable_store_graceful (codec : JsonCodec) (k : String) (now : Int)
    (st : LocalStorage) (hun : st.avail = false) :
    existsItem k st = false ∧
    getItem codec k now st =
      .ok ({ cids := prepareCids k, data := .str "",
             error := some ("The localStorage object is not supported"),
             result := false, expires := -1 }, st) ∧
    getItemV12 codec k now st = .error .typeError := by
  refine ⟨?_, ?_, ?_⟩
  · simp [existsItem, hun]
  · simp [getItem, hun]
  · simp [getItemV12, hun]

/-- Witness for the amended C8 at a concrete unavailable store. -/
theorem unavailable_store_graceful_witness :
    existsItem ("k") unavailStore = false ∧
    getItem toyCodec ("k") 0 unavailStore =
      .ok ({ cids := prepareCids ("k"), data := .str "",
             error := some ("The localStorage object is not supported"),
             result := false, expires := -1 }, unavailStore) ∧
    getItemV12 toyCodec ("k") 0 unavailStore = .error .typeError :=
  unavailable_store_graceful toyCodec ("k") 0 unavailStore (by decide)

/-- Counterexample for C8 as stated: the version 1.2 getItem raises a
TypeError when the underlying store is unavailable, instead of returning a
not-found record. -/
theorem getItemV12_unavailable_raises :
    getItemV12 toyCodec ("k") 0 unavailStore = .error .typeError := by decide

/-- getItem raises only out of the object arm of the decode switch, when the
stored value string fails to parse. -/
theorem getItem_error {codec : JsonCodec} {k : String} {now : Int} {st : LocalStorage}
    {err : JSError}
    (h : getItem codec k now st = .error err) :
    ∃ s m, kvGet st.items (prepareCids k).type = some ("object") ∧
      kvGet st.items (prepareCids k).data = some s ∧
      codec.parse s = .error m ∧ err = .syntaxErr m := by
  simp only [getItem] at h
  split at h
  · rename_i hav
    split at h
    · rename_i hex
      split at h
      · split at h
        · simp at h
        · rename_i r heq
          injection h with h2
          obtain ⟨htag, m, hparse, herr⟩ := decodeTag_error heq
          have hds : ∃ s, kvGet st.items (prepareCids k).data = some s := by
            simp only [existsItem, hav, if_true] at hex
            exact Option.isSome_iff_exists.mp hex
          obtain ⟨s, hs⟩ := hds
          refine ⟨s, m, htag, hs, ?_, by rw [← h2, herr]⟩
          rw [hs] at hparse
          simpa using hparse
      · simp at h
    · simp at h
  · simp at h

/-- C2 amended: exists and remove return values by type; getItem and setItem
return normally except that setItem raises a TypeError on an undefined value
(the unguarded toString of the default arm) and getItem propagates the
SyntaxError of the codec when an object-tagged entry holds a string that fails
to parse. -/
theorem ops_raise_conditions (codec : JsonCodec) (k : String) (v : JSVal) (e : Option Int)
    (now : Int) (st : LocalStorage) :
    (∀ err, setItem codec k v e now st = .error err → v = .undef ∧ err = .typeError) ∧
    (∀ err, getItem codec k now st = .error err →
      ∃ s m, kvGet st.items (prepareCids k).type = some ("object") ∧
        kvGet st.items (prepareCids k).data = some s ∧
        codec.parse s = .error m ∧ err = .syntaxErr m) :=
  ⟨fun _ h => setItem_error h, fun _ h => getItem_error h⟩

/-- Witness for the amended C2: the raise condition of getItem holds at a
concrete corrupted store. -/
theorem ops_raise_conditions_witness :
    ∃ s m, kvGet corruptStore.items (prepareCids ("k")).type = some ("object") ∧
      kvGet corruptStore.items (prepareCids ("k")).data = some s ∧
      toyCodec.parse s = .error m ∧ JSError.syntaxErr ("Unexpected token") = .syntaxErr m :=
  (ops_raise_conditions toyCodec ("k") .undef none 0 corruptStore).2
    (.syntaxErr ("Unexpected token")) (by decide)

/-- Counterexample for C2 as stated: storing the undefined value raises a
TypeError out of setItem instead of returning a boolean. -/
theorem public_op_raises_cex :
    setItem toyCodec ("k") .undef none 0 emptyStore = .error .typeError := by decide

/-- C3: when an entry exists and the stored expiry parses to a time at or
before the current time, getItem reports found false with the expired error
(the literal message is Expired in cache) and deletes all three stored strings,
so that a subsequent exists reports false. -/
theorem getItem_expired_evicts (codec : JsonCodec) (k : String) (now : Int) (st : LocalStorage)
    (dv es : String) (e0 : Int)
    (hav : st.avail = true)
    (hdata : kvGet st.items (prepareCids k).data = some dv)
    (hexp : kvGet st.items (prepareCids k).expire = some es)
    (hparse : parseIntJS es = some e0)
    (hle : e0 ≤ now) :
    ∃ r st', getItem codec k now st = .ok (r, st') ∧ r.result = false ∧
      r.error = some ("Expired in cache") ∧
      kvGet st'.items (prepareCids k).data = none ∧
      kvGet st'.items (prepareCids k).type = none ∧
      kvGet st'.items (prepareCids k).expire = none ∧
      existsItem k st' = false := by
  have hd1 := dataKey_ne_typeKey k
  have hd2 := dataKey_ne_expireKey k
  have hd3 := typeKey_ne_expireKey k
  have hlt : jsLtOpt now (parseIntOpt (kvGet st.items (prepareCids k).expire)) = false := by
    rw [hexp]
    show jsLtOpt now (parseIntJS es) = false
    rw [hparse]
    simp [jsLtOpt]
    omega
  have hex : existsItem k st = true := by simp [existsItem, hav, hdata]
  have hnd : kvGet (kvRemove (kvRemove (kvRemove st.items (prepareCids k).data)
      (prepareCids k).type) (prepareCids k).expire) (prepareCids k).data = none := by
    rw [kvGet_kvRemove_ne _ hd2, kvGet_kvRemove_ne _ hd1]
    exact kvGet_kvRemove_self _ _
  have hnt : kvGet (kvRemove (kvRemove (kvRemove st.items (prepareCids k).data)
      (prepareCids k).type) (prepareCids k).expire) (prepareCids k).type = none := by
    rw [kvGet_kvRemove_ne _ hd3]
    exact kvGet_kvRemove_self _ _
  have hne : kvGet (kvRemove (kvRemove (kvRemove st.items (prepareCids k).data)
      (prepareCids k).type) (prepareCids k).expire) (prepareCids k).expire = none :=
    kvGet_kvRemove_self _ _
  refine ⟨{ cids := prepareCids k, data := .str "", error := some ("Expired in cache"),
            result := false, expires := -1 },
          { st with items := kvRemove (kvRemove (kvRemove st.items (prepareCids k).data)
              (prepareCids k).type) (prepareCids k).expire },
          ?_, rfl, rfl, hnd, hnt, hne, ?_⟩
  · simp [getItem, hav, hex, hlt, removeItem]
  · simp [existsItem, hav, hnd]

/-- Witness for C3 at a concrete store whose entry expired at time 5. -/
theorem getItem_expired_evicts_witness :
    ∃ r st', getItem toyCodec ("k") 5 demoWritten = .ok (r, st') ∧ r.result = false ∧
      r.error = some ("Expired in cache") ∧
      kvGet st'.items (prepareCids ("k")).data = none ∧
      kvGet st'.items (prepareCids ("k")).type = none ∧
      kvGet st'.items (prepareCids ("k")).expire = none ∧
      existsItem ("k") st' = false :=
  getItem_expired_evicts toyCodec ("k") 5 demoWritten ("hi") ("5") 5 (by decide) (by decide)
    (by decide) (by decide) (by decide)

/-- C9: after every successful setItem, the stored type tag equals the typeof
of the original value at call time, and that tag is one of the four tags the
decode switch dispatches on with success arms — so entries written by this
component never reach the unknown-tag arm, which is left to external
corruption. -/
theorem setItem_type_tag_invariant (codec : JsonCodec) (k : String) (v : JSVal)
    (e : Option Int) (now : Int) (st st' : LocalStorage)
    (h : setItem codec k v e now st = .ok (true, st')) :
    kvGet st'.items (prepareCids k).type = some (jsTypeof v) ∧
      (jsTypeof v = "object" ∨ jsTypeof v = "number" ∨ jsTypeof v = "boolean" ∨
        jsTypeof v = "string") := by
  obtain ⟨s, hp, hav, hst⟩ := setItem_ok_true h
  subst hst
  constructor
  · rw [kvGet_cons_ne _ _ (Ne.symm (typeKey_ne_expireKey k)), kvGet_cons_eq]
  · cases v with
    | obj j => exact Or.inl rfl
    | num n => exact Or.inr (Or.inl rfl)
    | bool b => exact Or.inr (Or.inr (Or.inl rfl))
    | str s2 => exact Or.inr (Or.inr (Or.inr rfl))
    | fn id => exact absurd hp (by simp [payloadStr])
    | undef => exact absurd hp (by simp [payloadStr])

/-- Witness for C9 at a concrete successful write of a string value. -/
theorem setItem_type_tag_invariant_witness :
    kvGet demoWritten.items (prepareCids ("k")).type = some (jsTypeof (.str "hi")) ∧
      (jsTypeof (JSVal.str "hi") = "object" ∨ jsTypeof (JSVal.str "hi") = "number" ∨
        jsTypeof (JSVal.str "hi") = "boolean" ∨ jsTypeof (JSVal.str "hi") = "string") :=
  setItem_type_tag_invariant toyCodec ("k") (.str "hi") (some 5) 0 emptyStore demoWritten
    (by decide)

/-- C5 amended: setItem never touches stored strings outside the three derived
keys of its logical key, and the failure paths that run before the write phase
(function value, payload that is not a string) leave the store fully
unchanged; but a store fault partway through the three writes returns false
while keeping the writes already performed, so a partial entry can remain. -/
theorem setItem_write_frame (codec : JsonCodec) (k : String) (v : JSVal) (e : Option Int)
    (now : Int) (st : LocalStorage) (b : Bool) (st' : LocalStorage)
    (h : setItem codec k v e now st = .ok (b, st')) :
    (∀ q, q ≠ (prepareCids k).data → q ≠ (prepareCids k).type → q ≠ (prepareCids k).expire →
      kvGet st'.items q = kvGet st.items q) ∧
    (payloadStr codec v = none → st' = st ∧ b = false) := by
  constructor
  · intro q hq1 hq2 hq3
    obtain ⟨ha, hf, hi⟩ := setItem_ok_items h
    rcases hi with hi | ⟨p, tg, x, hi | hi | hi⟩
    · rw [hi]
    · rw [hi, kvGet_cons_ne _ _ (Ne.symm hq1)]
    · rw [hi, kvGet_cons_ne _ _ (Ne.symm hq2), kvGet_cons_ne _ _ (Ne.symm hq1)]
    · rw [hi, kvGet_cons_ne _ _ (Ne.symm hq3), kvGet_cons_ne _ _ (Ne.symm hq2),
        kvGet_cons_ne _ _ (Ne.symm hq1)]
  · intro hp
    have hnu : v ≠ .undef := by
      intro hv
      subst hv
      simp [setItem, convertPayload] at h
    rw [setItem_payload_none hp hnu] at h
    simp only [Except.ok.injEq, Prod.mk.injEq] at h
    exact ⟨h.2.symm, h.1.symm⟩

/-- Witness for the amended C5: a successful write leaves an unrelated key
untouched. -/
theorem setItem_write_frame_witness :
    kvGet demoWritten.items ("unrelated") = kvGet emptyStore.items ("unrelated") :=
  (setItem_write_frame toyCodec ("k") (.str "hi") (some 5) 0 emptyStore true demoWritten
    (by decide)).1 ("unrelated") (by decide) (by decide) (by decide)

/-- Counterexample for C5 as stated: when the external store faults on the
second of the three writes, setItem returns false but the first write remains,
so the store is not left unchanged. -/
theorem setItem_partial_write_cex :
    setItem toyCodec ("k") (.str "v") (some 5) 0 partialStore = .ok (false, partialWritten) ∧
    partialWritten ≠ partialStore ∧
    kvGet partialWritten.items (prepareCids ("k")).data = some ("v") ∧
    kvGet partialStore.items (prepareCids ("k")).data = none := by decide

/-- C6 amended: the remainingTtl field (expires) of a getItem result is the
sentinel -1 exactly on the store-unavailable, key-not-found and expired
failures; on the live branch it is stored expiry minus current time — both for
successes and, contrary to the claim as stated, also for the function-tag and
unknown-tag decode failures, because the field is assigned before the decode
switch runs. -/
theorem getItem_expires_fields (codec : JsonCodec) (k : String) (now : Int)
    (st : LocalStorage) (r : GetResult) (st' : LocalStorage)
    (h : getItem codec k now st = .ok (r, st')) :
    (r.expires = -1 ↔
      (r.error = some ("The localStorage object is not supported") ∨
       r.error = some ("Cache key undefined") ∨
       r.error = some ("Expired in cache"))) ∧
    (r.expires ≠ -1 →
      ∃ es e0, kvGet st.items (prepareCids k).expire = some es ∧ parseIntJS es = some e0 ∧
        now < e0 ∧ r.expires = e0 - now ∧
        (r.result = true ∨
         r.error = some ("Function was saved, unable to retrieve the value") ∨
         r.error = some ("Unknown data type was saved"))) := by
  simp only [getItem] at h
  split at h
  · rename_i hav
    split at h
    · rename_i hex
      split at h
      · rename_i hlt
        split at h
        · rename_i r0 heq
          simp only [Except.ok.injEq, Prod.mk.injEq] at h
          obtain ⟨hr, hst⟩ := h
          subst hr
          obtain ⟨hexp0, hcids, hclass⟩ := decodeTag_ok heq
          cases hke : kvGet st.items (prepareCids k).expire with
          | none =>
            rw [hke] at hlt
            simp [parseIntOpt, jsLtOpt] at hlt
          | some es =>
            rw [hke] at hlt
            simp only [parseIntOpt] at hlt
            cases hpe : parseIntJS es with
            | none =>
              rw [hpe] at hlt
              simp [jsLtOpt] at hlt
            | some e0 =>
              rw [hpe] at hlt
              simp only [jsLtOpt, decide_eq_true_eq] at hlt
              rw [hke] at hexp0
              simp only [parseIntOpt] at hexp0
              rw [hpe] at hexp0
              simp only [Option.getD_some] at hexp0
              constructor
              · constructor
                · intro habs
                  rw [hexp0] at habs
                  omega
                · intro hor
                  exfalso
                  rcases hclass with ⟨hres, herr⟩ | ⟨hres, herr⟩
                  · rcases hor with h1 | h1 | h1 <;> rw [herr] at h1 <;> simp at h1
                  · rcases herr with herr | herr <;> rcases hor with h1 | h1 | h1 <;>
                      rw [herr] at h1 <;> simp at h1
              · intro _
                refine ⟨es, e0, rfl, hpe, hlt, hexp0, ?_⟩
                rcases hclass with ⟨hres, herr⟩ | ⟨hres, herr⟩
                · exact Or.inl hres
                · exact Or.inr herr
        · simp at h
      · simp only [Except.ok.injEq, Prod.mk.injEq] at h
        obtain ⟨hr, hst⟩ := h
        subst hr
        constructor
        · simp
        · intro habs
          simp at habs
    · simp only [Except.ok.injEq, Prod.mk.injEq] at h
      obtain ⟨hr, hst⟩ := h
      subst hr
      constructor
      · simp
      · intro habs
        simp at habs
  · simp only [Except.ok.injEq, Prod.mk.injEq] at h
    obtain ⟨hr, hst⟩ := h
    subst hr
    constructor
    · simp
    · intro habs
      simp at habs

/-- Witness for the amended C6 at a concrete successful get. -/
theorem getItem_expires_fields_witness :
    (demoGetRes.expires = -1 ↔
      (demoGetRes.error = some ("The localStorage object is not supported") ∨
       demoGetRes.error = some ("Cache key undefined") ∨
       demoGetRes.error = some ("Expired in cache"))) ∧
    (demoGetRes.expires ≠ -1 →
      ∃ es e0, kvGet demoWritten.items (prepareCids ("k")).expire = some es ∧
        parseIntJS es = some e0 ∧ 3 < e0 ∧ demoGetRes.expires = e0 - 3 ∧
        (demoGetRes.result = true ∨
         demoGetRes.error = some ("Function was saved, unable to retrieve the value") ∨
         demoGetRes.error = some ("Unknown data type was saved"))) :=
  getItem_expires_fields toyCodec ("k") 3 demoWritten demoGetRes demoWritten (by decide)

/-- Counterexample for C6 as stated: a failing get caused by a function type
tag returns the remaining time to expiry, not the sentinel -1. -/
theorem getItem_decode_failure_ttl_cex :
    getItem toyCodec ("k") 0 fnTagStore = .ok (fnTagRes, fnTagStore) ∧
    fnTagRes.result = false ∧ fnTagRes.expires = 100 ∧ fnTagRes.expires ≠ -1 := by decide

/-- On an available store with an existing entry whose stored expiry parses to
a time strictly after now, getItem runs the decode switch on the stored tag
and value and returns the store unchanged. -/
theorem getItem_live {codec : JsonCodec} {k : String} {now : Int} {st : LocalStorage}
    {es : String} {e0 : Int}
    (hav : st.avail = true)
    (hdata : (kvGet st.items (prepareCids k).data).isSome = true)
    (hexp : kvGet st.items (prepareCids k).expire = some es)
    (hparse : parseIntJS es = some e0)
    (hlt : now < e0) :
    getItem codec k now st =
      match decodeTag codec
          { cids := prepareCids k, data := .str "", error := none, result := false,
            expires := -1 }
          (kvGet st.items (prepareCids k).type)
          ((kvGet st.items (prepareCids k).data).getD "") (e0 - now) with
      | .ok r => .ok (r, st)
      | .error e2 => .error e2 := by
  have hex : existsItem k st = true := by simp [existsItem, hav, hdata]
  have hlt2 : jsLtOpt now (parseIntOpt (kvGet st.items (prepareCids k).expire)) = true := by
    rw [hexp]
    show jsLtOpt now (parseIntJS es) = true
    rw [hparse]
    simp [jsLtOpt]
    omega
  simp only [getItem, hav, hex, hlt2, if_true]
  rw [hexp]
  simp only [parseIntOpt]
  rw [hparse]
  simp only [Option.getD_some]


/-- The decode switch at the object tag dispatches on the codec parse. -/
theorem decodeTag_object (codec : JsonCodec) (base : GetResult) (s : String) (exp : Int) :
    decodeTag codec base (some ("object")) s exp =
      match codec.parse s with
      | .ok j => .ok { base with data := .obj j, result := true, expires := exp }
      | .error m => .error (.syntaxErr m) := rfl

/-- The decode switch at the number tag applies the Number conversion. -/
theorem decodeTag_number (codec : JsonCodec) (base : GetResult) (s : String) (exp : Int) :
    decodeTag codec base (some ("number")) s exp =
      .ok { base with data := .num (jsNumberOfString s), result := true, expires := exp } := rfl

/-- The decode switch at the boolean tag compares against the literal true. -/
theorem decodeTag_boolean (codec : JsonCodec) (base : GetResult) (s : String) (exp : Int) :
    decodeTag codec base (some ("boolean")) s exp =
      .ok { base with data := .bool (s = "true"), result := true, expires := exp } := rfl

/-- The decode switch at the string tag passes the value through. -/
theorem decodeTag_string (codec : JsonCodec) (base : GetResult) (s : String) (exp : Int) :
    decodeTag codec base (some ("string")) s exp =
      .ok { base with data := .str s, result := true, expires := exp } := rfl

/-- C1: for every logical key, every value of kind object, number, boolean or
string, and every integer TTL t greater than zero, after a successful setItem
with TTL t at time now, a getItem performed d milliseconds later with d less
than t yields found true and data equal to the original value; the object case
assumes the codec round-trips the serialized value, which the spec grants for
the external JSON collaborator. -/
theorem setItem_getItem_roundtrip (codec : JsonCodec) (k : String) (v : JSVal)
    (t now d : Int) (st st' : LocalStorage)
    (hkind : jsTypeof v = "object" ∨ jsTypeof v = "number" ∨ jsTypeof v = "boolean" ∨
      jsTypeof v = "string")
    (hrt : ∀ j s, v = .obj j → codec.stringify j = some s → codec.parse s = .ok j)
    (ht : 0 < t)
    (hset : setItem codec k v (some t) now st = .ok (true, st'))
    (hd0 : 0 ≤ d) (hdt : d < t) :
    ∃ r, getItem codec k (now + d) st' = .ok (r, st') ∧ r.result = true ∧ r.data = v := by
  obtain ⟨s, hp, hav, hst⟩ := setItem_ok_true hset
  have hT : setExpireTime (some t) = t := by
    show (if t = 0 then defaultTime else t) = t
    rw [if_neg (by omega)]
  rw [hT] at hst
  subst hst
  have hd1 := dataKey_ne_typeKey k
  have hd2 := dataKey_ne_expireKey k
  have hd3 := typeKey_ne_expireKey k
  have hgd : kvGet (((prepareCids k).expire, jsIntToString (t + now)) ::
      ((prepareCids k).type, jsTypeof v) ::
      ((prepareCids k).data, s) :: st.items) (prepareCids k).data = some s := by
    rw [kvGet_cons_ne _ _ (Ne.symm hd2), kvGet_cons_ne _ _ (Ne.symm hd1), kvGet_cons_eq]
  have hgt : kvGet (((prepareCids k).expire, jsIntToString (t + now)) ::
      ((prepareCids k).type, jsTypeof v) ::
      ((prepareCids k).data, s) :: st.items) (prepareCids k).type = some (jsTypeof v) := by
    rw [kvGet_cons_ne _ _ (Ne.symm hd3), kvGet_cons_eq]
  have hge : kvGet (((prepareCids k).expire, jsIntToString (t + now)) ::
      ((prepareCids k).type, jsTypeof v) ::
      ((prepareCids k).data, s) :: st.items) (prepareCids k).expire =
      some (jsIntToString (t + now)) := kvGet_cons_eq _ _ _
  have hlive := @getItem_live codec k (now + d)
    { st with items := ((prepareCids k).expire, jsIntToString (t + now)) ::
        ((prepareCids k).type, jsTypeof v) :: ((prepareCids k).data, s) :: st.items }
    (jsIntToString (t + now)) (t + now)
    hav (by rw [hgd]; rfl) hge (parseIntJS_jsIntToString (t + now)) (by omega)
  rw [hlive, hgt, hgd]
  simp only [Option.getD_some]
  cases v with
  | fn id => simp [payloadStr] at hp
  | undef => simp [payloadStr] at hp
  | str s0 =>
    obtain rfl : s0 = s := Option.some.inj hp
    refine ⟨{ cids := prepareCids k, data := .str s0, error := none, result := true,
              expires := t + now - (now + d) }, ?_, rfl, rfl⟩
    simp only [jsTypeof]
    rw [decodeTag_string]
  | num n =>
    obtain rfl : jsNumToString n = s := Option.some.inj hp
    refine ⟨{ cids := prepareCids k, data := .num n, error := none, result := true,
              expires := t + now - (now + d) }, ?_, rfl, rfl⟩
    simp only [jsTypeof]
    rw [decodeTag_number, jsNumberOfString_jsNumToString]
  | bool b =>
    obtain rfl : (if b then "true" else "false") = s := Option.some.inj hp
    cases b with
    | true =>
      refine ⟨{ cids := prepareCids k, data := .bool true, error := none, result := true,
                expires := t + now - (now + d) }, ?_, rfl, rfl⟩
      simp only [jsTypeof]
      rw [decodeTag_boolean]
      simp
    | false =>
      refine ⟨{ cids := prepareCids k, data := .bool false, error := none, result := true,
                expires := t + now - (now + d) }, ?_, rfl, rfl⟩
      simp only [jsTypeof]
      rw [decodeTag_boolean]
      simp
  | obj j =>
    have hparse := hrt j s rfl hp
    refine ⟨{ cids := prepareCids k, data := .obj j, error := none, result := true,
              expires := t + now - (now + d) }, ?_, rfl, rfl⟩
    simp only [jsTypeof]
    rw [decodeTag_object, hparse]

/-- Witness for C1: a concrete set of the string hi with TTL 5 followed by an
immediate get. -/
theorem setItem_getItem_roundtrip_witness :
    ∃ r, getItem toyCodec ("k") (0 + 0) demoWritten = .ok (r, demoWritten) ∧
      r.result = true ∧ r.data = .str "hi" :=
  setItem_getItem_roundtrip toyCodec ("k") (.str "hi") 5 0 0 emptyStore demoWritten
    (Or.inr (Or.inr (Or.inr rfl))) (fun _ _ hj _ => nomatch hj) (by decide) (by decide)
    (by decide) (by decide)
